import Mathlib

/-!
Shallow embedding of `src/main.rs` of the geotiff_convert repository.

The source program reads a u16 raster, builds an attribute table from a
DBF file, downscales the raster by an integer factor and classifies each
output pixel along four axes (terrain, vegetation, temperature, moisture)
by a majority vote over the scale-by-scale source window, rendering each
vote through a fixed palette.

Modelling decisions:
* u16 values are modelled as `Nat` (no arithmetic in the program can
  overflow a u16 into relevance: values are only compared and copied).
* Rust panics (`unwrap`, `panic!`, out-of-bounds indexing) are modelled
  by `Option` / an explicit `panicked` constructor: `none` means the run
  aborts.
* The `HashMap` iteration in `most_common` has unspecified order; it is
  modelled by a fold `most_common_fold` over an arbitrary permutation of
  the tally list (key, count).  The canonical instance `most_common`
  iterates in first-occurrence order.
-/

/-- Mirror of the Rust struct `PixelMapping` (main.rs lines 16-22). -/
structure PixelMapping where
  value : Nat
  terrain : Nat
  vegetation : Nat
  temperature : Nat
  moisture : Nat
deriving DecidableEq, Repr

/-- Result of `map_pixel` (main.rs lines 153-160): either the first row whose
`value` field matches, or the `panic!` at line 159 carrying the queried value. -/
inductive LookupResult where
  | found (m : PixelMapping)
  | panicked (v : Nat)
deriving DecidableEq, Repr

/-- Mirror of `map_pixel` (main.rs lines 153-160): scan the mappings in order,
return the first row whose `value` equals the queried pixel value, and panic
when none matches. -/
def map_pixel (pixel_value : Nat) : List PixelMapping → LookupResult
  | [] => .panicked pixel_value
  | m :: rest =>
      if m.value = pixel_value then .found m else map_pixel pixel_value rest

/-- The tally built by the loop of `most_common` (main.rs lines 163-166): the
final `HashMap` holds each distinct element of the window with its count.
The list records keys in first-occurrence order; iteration order of the Rust
`HashMap` is modelled separately as an arbitrary permutation of this list. -/
def tally (l : List Nat) : List (Nat × Nat) :=
  l.dedup.map (fun k => (k, l.count k))

/-- One step of the selection loop of `most_common` (main.rs lines 169-174):
state is `(most_common, max_count)`; an entry replaces it only on a strictly
larger count. -/
def mcStep (acc : Nat × Nat) (p : Nat × Nat) : Nat × Nat :=
  if p.2 > acc.2 then p else acc

/-- The selection loop of `most_common` (main.rs lines 167-175) run over the
tally entries in a given iteration order, starting from
`most_common = 0, max_count = 0`. -/
def most_common_fold (entries : List (Nat × Nat)) : Nat :=
  (entries.foldl mcStep (0, 0)).1

/-- Mirror of `most_common` (main.rs lines 162-176) with the `HashMap`
iterated in first-occurrence (insertion) order. -/
def most_common (l : List Nat) : Nat :=
  most_common_fold (tally l)

/-- Classification of one source cell (main.rs lines 90-102): codes below the
grid maximum are looked up in the attribute table (a missing row panics,
modelled as `none`); codes at or above it become the sentinel `(0,0,0,0)`
with no lookup. -/
def classifyCell (mappings : List PixelMapping) (maxVal v : Nat) :
    Option (Nat × Nat × Nat × Nat) :=
  if v < maxVal then
    match map_pixel v mappings with
    | .found m => some (m.terrain, m.vegetation, m.temperature, m.moisture)
    | .panicked _ => none
  else
    some (0, 0, 0, 0)

/-- The flat source-buffer index computed at main.rs line 89:
`((y*scale + j)*width + (x*scale + i))`. -/
def windowIndex (scale width x y i j : Nat) : Nat :=
  (y * scale + j) * width + (x * scale + i)

/-- All indices gathered by the window loop (main.rs lines 87-104), in loop
order: outer loop over `i`, inner loop over `j`. -/
def windowIndices (scale width x y : Nat) : List Nat :=
  (List.range scale).flatMap (fun i =>
    (List.range scale).map (fun j => windowIndex scale width x y i j))

/-- The source codes of one output pixel's window (main.rs lines 87-90);
`none` models the Rust panic on an out-of-bounds index. -/
def windowCodes (src : List Nat) (scale width x y : Nat) : Option (List Nat) :=
  (windowIndices scale width x y).mapM (fun idx => src[idx]?)

/-- Classify every code of a window (main.rs lines 91-102); `none` propagates
a panic from `map_pixel`. -/
def classifyWindow (mappings : List PixelMapping) (maxVal : Nat)
    (codes : List Nat) : Option (List (Nat × Nat × Nat × Nat)) :=
  codes.mapM (classifyCell mappings maxVal)

/-- The four per-axis majority votes of a classified window
(main.rs lines 105, 114, 126, 137), with the canonical iteration order. -/
def axisVotes (cls : List (Nat × Nat × Nat × Nat)) : Nat × Nat × Nat × Nat :=
  (most_common (cls.map (fun q => q.1)),
   most_common (cls.map (fun q => q.2.1)),
   most_common (cls.map (fun q => q.2.2.1)),
   most_common (cls.map (fun q => q.2.2.2)))

/-- Terrain palette (main.rs lines 105-111). -/
def paletteTerrain : Nat → Nat × Nat × Nat
  | 1 => (128, 128, 128)
  | 2 => (139, 69, 19)
  | 3 => (232, 193, 148)
  | 4 => (98, 188, 47)
  | _ => (35, 137, 218)

/-- Vegetation palette (main.rs lines 114-123). -/
def paletteVegetation : Nat → Nat × Nat × Nat
  | 1 => (0, 128, 0)
  | 2 => (139, 69, 19)
  | 3 => (0, 128, 0)
  | 4 => (0, 255, 0)
  | 5 => (255, 0, 0)
  | 6 => (128, 128, 128)
  | 8 => (255, 255, 255)
  | _ => (35, 137, 218)

/-- Temperature palette (main.rs lines 126-134). -/
def paletteTemperature : Nat → Nat × Nat × Nat
  | 1 => (0, 0, 255)
  | 2 => (0, 128, 255)
  | 3 => (0, 255, 255)
  | 4 => (255, 255, 0)
  | 5 => (255, 0, 0)
  | 6 => (255, 255, 255)
  | _ => (35, 137, 218)

/-- Moisture palette (main.rs lines 137-142). -/
def paletteMoisture : Nat → Nat × Nat × Nat
  | 1 => (255, 255, 0)
  | 2 => (255, 128, 0)
  | 3 => (0, 255, 0)
  | _ => (35, 137, 218)

/-- The four RGB colors written at one output coordinate (main.rs lines
82-143), for a given no-data threshold `maxVal`. -/
def cellColors (src : List Nat) (mappings : List PixelMapping)
    (scale width maxVal x y : Nat) :
    Option ((Nat × Nat × Nat) × (Nat × Nat × Nat) × (Nat × Nat × Nat) × (Nat × Nat × Nat)) :=
  ((windowCodes src scale width x y).bind
      (classifyWindow mappings maxVal)).map (fun cls =>
    let v := axisVotes cls
    (paletteTerrain v.1, paletteVegetation v.2.1,
     paletteTemperature v.2.2.1, paletteMoisture v.2.2.2))

/-- The no-data threshold `max_db_value` (main.rs line 80): the maximum over
the whole source buffer; `none` models the `unwrap` panic on an empty
buffer. -/
def maxSource (src : List Nat) : Option Nat :=
  src.max?

/-- One output cell of the whole run (main.rs lines 68-144): threshold from
the source maximum, then the per-pixel pipeline. -/
def runCell (src : List Nat) (mappings : List PixelMapping)
    (scale width x y : Nat) :
    Option ((Nat × Nat × Nat) × (Nat × Nat × Nat) × (Nat × Nat × Nat) × (Nat × Nat × Nat)) :=
  (maxSource src).bind (fun m => cellColors src mappings scale width m x y)

/-- Output image width (main.rs line 70): `width / scale`, Rust integer
(floor) division. -/
def outWidth (width scale : Nat) : Nat :=
  width / scale

/-- Output image height (main.rs line 70): `height / scale`. -/
def outHeight (height scale : Nat) : Nat :=
  height / scale

/-- Mirror of the dbase `FieldValue` as used in `read_database_mappings`
(main.rs lines 29-42): a numeric field optionally carries a value (the u16
the Rust cast produces); every non-numeric variant is collapsed into
`character`, since the code ignores all of them alike. -/
inductive FieldValue where
  | numeric (n : Option Nat)
  | character (s : String)
deriving DecidableEq, Repr

/-- Processing of one record field (main.rs lines 30-42): a numeric value for
one of the five known names is unwrapped (`none` models the `unwrap` panic on
an empty numeric field) and stored; any other name or any non-numeric value
is ignored. -/
def applyField (p : PixelMapping) (name : String) (v : FieldValue) :
    Option PixelMapping :=
  match v with
  | .numeric n =>
      if name = "Value" then n.map (fun k => { p with value := k })
      else if name = "World_Lan1" then n.map (fun k => { p with terrain := k })
      else if name = "World_Lan2" then n.map (fun k => { p with vegetation := k })
      else if name = "World_Temp" then n.map (fun k => { p with temperature := k })
      else if name = "World_Mois" then n.map (fun k => { p with moisture := k })
      else some p
  | .character _ => some p

/-- Building one attribute row from one record (main.rs lines 28-44): start
from the all-zero row and fold the record's fields; `none` models a panic. -/
def buildRow (fields : List (String × FieldValue)) : Option PixelMapping :=
  fields.foldlM (fun p nv => applyField p nv.1 nv.2) ⟨0, 0, 0, 0, 0⟩

/-- Modelled from the spec for the comparison in C6: the direct per-cell
classification of the source grid — classify the single cell at (x, y) and
render it through the four palettes, with no window aggregation. -/
def classifyOnly (src : List Nat) (mappings : List PixelMapping)
    (width maxVal x y : Nat) :
    Option ((Nat × Nat × Nat) × (Nat × Nat × Nat) × (Nat × Nat × Nat) × (Nat × Nat × Nat)) :=
  (src[y * width + x]?).bind (fun v =>
    (classifyCell mappings maxVal v).map (fun q =>
      (paletteTerrain q.1, paletteVegetation q.2.1,
       paletteTemperature q.2.2.1, paletteMoisture q.2.2.2)))

/-- The five field names `read_database_mappings` reacts to
(main.rs lines 33-37). -/
def namedFields : List String :=
  ["Value", "World_Lan1", "World_Lan2", "World_Temp", "World_Mois"]

/-- The row field a named attribute-file field is stored into
(main.rs lines 33-37). -/
def rowField (p : PixelMapping) (name : String) : Nat :=
  if name = "Value" then p.value
  else if name = "World_Lan1" then p.terrain
  else if name = "World_Lan2" then p.vegetation
  else if name = "World_Temp" then p.temperature
  else p.moisture

/-- The 4 x 4 source grid of the spec §8 scenario (rows of code 1
alternating with rows of code 2). -/
def c5src : List Nat := [1, 1, 1, 1, 2, 2, 2, 2, 1, 1, 1, 1, 2, 2, 2, 2]

/-- The attribute table of the spec §8 scenario: code 1 maps to terrain 4,
code 2 to terrain 1 (other axes arbitrary). -/
def c5table : List PixelMapping := [⟨1, 4, 1, 1, 1⟩, ⟨2, 1, 2, 2, 2⟩]

/-! ### Properties of the majority-vote fold -/

/-- The running maximum count never decreases along the selection loop. -/
theorem mcFold_snd_le_init (entries : List (Nat × Nat)) (s : Nat × Nat) :
    s.2 ≤ (entries.foldl mcStep s).2 := by
  induction entries generalizing s with
  | nil => simp
  | cons q rest ih =>
      simp only [List.foldl_cons]
      refine le_trans ?_ (ih (mcStep s q))
      unfold mcStep
      split <;> omega

/-- The final maximum count dominates the count of every entry seen. -/
theorem mcFold_snd_ge_mem (entries : List (Nat × Nat)) (s : Nat × Nat) :
    ∀ p ∈ entries, p.2 ≤ (entries.foldl mcStep s).2 := by
  induction entries generalizing s with
  | nil => simp
  | cons q rest ih =>
      intro p hp
      simp only [List.foldl_cons]
      rcases List.mem_cons.mp hp with h | h
      · subst h
        refine le_trans ?_ (mcFold_snd_le_init rest (mcStep s p))
        unfold mcStep
        split <;> omega
      · exact ih (mcStep s q) p h

/-- The selection loop ends in its initial state or on one of the entries. -/
theorem mcFold_mem (entries : List (Nat × Nat)) (s : Nat × Nat) :
    entries.foldl mcStep s = s ∨ entries.foldl mcStep s ∈ entries := by
  induction entries generalizing s with
  | nil => simp
  | cons q rest ih =>
      simp only [List.foldl_cons]
      rcases ih (mcStep s q) with h | h
      · rw [h]
        unfold mcStep
        split
        · right
          exact List.mem_cons_self q rest
        · left
          rfl
      · right
        exact List.mem_cons_of_mem q h

/-- If one entry's count is positive and strictly above the count of every
entry with a different key, the selection loop returns that key, whatever
the iteration order. -/
theorem most_common_fold_strict (entries : List (Nat × Nat)) (v cv : Nat)
    (hmem : (v, cv) ∈ entries) (hcv : 0 < cv)
    (hothers : ∀ p ∈ entries, p.1 ≠ v → p.2 < cv) :
    most_common_fold entries = v := by
  unfold most_common_fold
  have hge : cv ≤ (entries.foldl mcStep (0, 0)).2 :=
    mcFold_snd_ge_mem entries (0, 0) (v, cv) hmem
  rcases mcFold_mem entries (0, 0) with h | h
  · rw [h] at hge
    simp at hge
    omega
  · by_contra hne
    have hlt := hothers _ h hne
    omega

/-- Membership in the tally: exactly the elements of the window, each paired
with its count. -/
theorem tally_mem_iff (l : List Nat) (k c : Nat) :
    (k, c) ∈ tally l ↔ k ∈ l ∧ c = l.count k := by
  simp only [tally, List.mem_map, List.mem_dedup, Prod.mk.injEq]
  constructor
  · rintro ⟨a, ha, rfl, rfl⟩
    exact ⟨ha, rfl⟩
  · rintro ⟨h1, rfl⟩
    exact ⟨k, h1, rfl, rfl⟩

/-- Strict plurality decides the vote for every iteration order of the
tally of a window. -/
theorem most_common_fold_perm_strict (l : List Nat) (v : Nat)
    (entries : List (Nat × Nat)) (hperm : entries.Perm (tally l))
    (hv : v ∈ l)
    (hstrict : ∀ w ∈ l, w ≠ v → l.count w < l.count v) :
    most_common_fold entries = v := by
  apply most_common_fold_strict entries v (l.count v)
  · exact hperm.mem_iff.mpr ((tally_mem_iff l v (l.count v)).mpr ⟨hv, rfl⟩)
  · exact Nat.pos_of_ne_zero (fun h0 => (List.count_eq_zero.mp h0) hv)
  · intro p hp hne
    obtain ⟨h1, h2⟩ := (tally_mem_iff l p.1 p.2).mp (hperm.mem_iff.mp hp)
    rw [h2]
    exact hstrict p.1 h1 hne

/-- C7: for every non-empty window with a value occurring strictly more often
than every other value, the majority vote returns that value, and the result
is unchanged under any permutation of the window elements. -/
theorem most_common_strict_plurality_perm_invariant (l l2 : List Nat) (v : Nat)
    (hv : v ∈ l) (hperm : l.Perm l2)
    (hstrict : ∀ w ∈ l, w ≠ v → l.count w < l.count v) :
    most_common l2 = v := by
  apply most_common_fold_perm_strict l2 v (tally l2) (List.Perm.refl _)
  · exact hperm.mem_iff.mp hv
  · intro w hw hne
    rw [← hperm.count_eq w, ← hperm.count_eq v]
    exact hstrict w (hperm.mem_iff.mpr hw) hne

/-- C1 counterexample: looking up code 7 in a table whose only row carries
code 1 reaches the panic at main.rs line 159 — the lookup aborts the run for
an unmapped code instead of returning an empty result. -/
theorem map_pixel_unmapped_panics :
    map_pixel 7 [⟨1, 2, 3, 4, 5⟩] = .panicked 7 := by decide

/-- C1 amended: the lookup returns a row matching the queried code whenever
the table has one, and panics (aborting the run) with the queried value when
no row matches. -/
theorem map_pixel_found_or_panic (v : Nat) (mappings : List PixelMapping) :
    ((∃ m ∈ mappings, m.value = v) →
        ∃ m, map_pixel v mappings = .found m ∧ m.value = v) ∧
    ((∀ m ∈ mappings, m.value ≠ v) → map_pixel v mappings = .panicked v) := by
  induction mappings with
  | nil =>
      exact ⟨fun ⟨m, hm, _⟩ => absurd hm (List.not_mem_nil m), fun _ => rfl⟩
  | cons a rest ih =>
      constructor
      · rintro ⟨m, hm, hv⟩
        by_cases ha : a.value = v
        · exact ⟨a, by simp [map_pixel, ha], ha⟩
        · rcases List.mem_cons.mp hm with rfl | hm2
          · exact absurd hv ha
          · obtain ⟨m2, hfind, hv2⟩ := ih.1 ⟨m, hm2, hv⟩
            exact ⟨m2, by simp [map_pixel, ha, hfind], hv2⟩
      · intro hall
        have ha : a.value ≠ v := hall a (List.mem_cons_self a rest)
        have hrest := ih.2 (fun m hm => hall m (List.mem_cons_of_mem a hm))
        simp [map_pixel, ha, hrest]

/-- Witness for the amended C1 at code 7 and a one-row table holding it. -/
theorem map_pixel_found_or_panic_witness :
    (∃ m ∈ ([⟨7, 1, 2, 3, 4⟩] : List PixelMapping), m.value = 7) ∧
    (∃ m, map_pixel 7 [⟨7, 1, 2, 3, 4⟩] = .found m ∧ m.value = 7) :=
  ⟨by decide, (map_pixel_found_or_panic 7 [⟨7, 1, 2, 3, 4⟩]).1 (by decide)⟩

/-- C8: when the table holds several rows with the queried code, the lookup
returns the first matching row in table order; later rows with the same code
are never consulted. -/
theorem map_pixel_first_match (v : Nat) (pre post : List PixelMapping)
    (m : PixelMapping) (hdup : ∃ m2 ∈ post, m2.value = v)
    (hpre : ∀ m2 ∈ pre, m2.value ≠ v) (hm : m.value = v) :
    map_pixel v (pre ++ m :: post) = .found m := by
  induction pre with
  | nil => simp [map_pixel, hm]
  | cons a rest ih =>
      have ha : a.value ≠ v := hpre a (List.mem_cons_self a rest)
      simpa [map_pixel, ha] using
        ih (fun m2 hm2 => hpre m2 (List.mem_cons_of_mem a hm2))

/-- Witness for C8: a table with a non-matching first row and two rows with
code 1; lookup returns the earlier of the two. -/
theorem map_pixel_first_match_witness :
    ((∃ m2 ∈ ([⟨1, 99, 0, 0, 0⟩] : List PixelMapping), m2.value = 1) ∧
      (∀ m2 ∈ ([⟨2, 0, 0, 0, 0⟩] : List PixelMapping), m2.value ≠ 1) ∧
      PixelMapping.value ⟨1, 10, 0, 0, 0⟩ = 1) ∧
    map_pixel 1 ([⟨2, 0, 0, 0, 0⟩] ++ ⟨1, 10, 0, 0, 0⟩ :: [⟨1, 99, 0, 0, 0⟩]) =
      .found ⟨1, 10, 0, 0, 0⟩ :=
  ⟨⟨by decide, by decide, by decide⟩,
    map_pixel_first_match 1 [⟨2, 0, 0, 0, 0⟩] [⟨1, 99, 0, 0, 0⟩] ⟨1, 10, 0, 0, 0⟩
      (by decide) (by decide) (by decide)⟩

/-- C2: with the no-data threshold computed as the maximum of the source
grid, every source cell whose code is at or above it classifies to the
sentinel (0, 0, 0, 0) for every attribute table (hence with no lookup), and
axis value 0 renders as the default blue (35, 137, 218) on all four
palettes. -/
theorem classify_at_max_unclassified_blue (src : List Nat) (M v : Nat)
    (mappings : List PixelMapping)
    (hmax : maxSource src = some M) (hv : v ∈ src) (hge : M ≤ v) :
    classifyCell mappings M v = some (0, 0, 0, 0) ∧
    paletteTerrain 0 = (35, 137, 218) ∧
    paletteVegetation 0 = (35, 137, 218) ∧
    paletteTemperature 0 = (35, 137, 218) ∧
    paletteMoisture 0 = (35, 137, 218) := by
  refine ⟨?_, rfl, rfl, rfl, rfl⟩
  simp [classifyCell, Nat.not_lt.mpr hge]

/-- Witness for C2 on the grid [1, 2]: the cell carrying the maximum code 2
is sentinel-classified for a table that does map code 2. -/
theorem classify_at_max_unclassified_blue_witness :
    (maxSource [1, 2] = some 2 ∧ 2 ∈ [1, 2] ∧ 2 ≤ 2) ∧
    (classifyCell [⟨2, 9, 9, 9, 9⟩] 2 2 = some (0, 0, 0, 0) ∧
      paletteTerrain 0 = (35, 137, 218) ∧
      paletteVegetation 0 = (35, 137, 218) ∧
      paletteTemperature 0 = (35, 137, 218) ∧
      paletteMoisture 0 = (35, 137, 218)) :=
  ⟨⟨by decide, by decide, by decide⟩,
    classify_at_max_unclassified_blue [1, 2] 2 2 [⟨2, 9, 9, 9, 9⟩]
      (by decide) (by decide) (by decide)⟩

/-- C3 counterexample: the window of classified terrain values [4, 0, 4, 0]
has tally entries (4, 2) and (0, 2); both of its iteration orders are
admissible orders of the unordered frequency table, and the selection loop
votes 4 under one order and 0 under the other, so two evaluations of the
aggregation need not agree on a tied window. -/
theorem aggregation_tie_order_dependent :
    ([((4 : Nat), (2 : Nat)), (0, 2)]).Perm (tally [4, 0, 4, 0]) ∧
    ([((0 : Nat), (2 : Nat)), (4, 2)]).Perm (tally [4, 0, 4, 0]) ∧
    most_common_fold [(4, 2), (0, 2)] = 4 ∧
    most_common_fold [(0, 2), (4, 2)] = 0 := by decide

/-- C3 amended: for a fixed window, on every axis whose classified values
have a strict plurality the vote is independent of the frequency-table
iteration order, so two evaluations agree; on a tied axis the vote depends
on the unspecified hash-map iteration order and two evaluations may differ. -/
theorem aggregation_deterministic_of_strict_plurality (l : List Nat) (v : Nat)
    (e1 e2 : List (Nat × Nat))
    (h1 : e1.Perm (tally l)) (h2 : e2.Perm (tally l))
    (hv : v ∈ l) (hstrict : ∀ w ∈ l, w ≠ v → l.count w < l.count v) :
    most_common_fold e1 = most_common_fold e2 := by
  rw [most_common_fold_perm_strict l v e1 h1 hv hstrict,
    most_common_fold_perm_strict l v e2 h2 hv hstrict]

/-- Witness for the amended C3 on the axis window [4, 4, 0] with the two
iteration orders of its tally. -/
theorem aggregation_deterministic_of_strict_plurality_witness :
    (([((4 : Nat), (2 : Nat)), (0, 1)]).Perm (tally [4, 4, 0]) ∧
      ([((0 : Nat), (1 : Nat)), (4, 2)]).Perm (tally [4, 4, 0]) ∧
      4 ∈ [4, 4, 0] ∧
      (∀ w ∈ [4, 4, 0], w ≠ 4 →
        ([4, 4, 0] : List Nat).count w < ([4, 4, 0] : List Nat).count 4)) ∧
    most_common_fold [(4, 2), (0, 1)] = most_common_fold [(0, 1), (4, 2)] :=
  ⟨⟨by decide, by decide, by decide, by decide⟩,
    aggregation_deterministic_of_strict_plurality [4, 4, 0] 4
      [(4, 2), (0, 1)] [(0, 1), (4, 2)] (by decide) (by decide) (by decide) (by decide)⟩

/-- Witness for C7 at the window [3, 3, 5], reordered to [3, 5, 3]. -/
theorem most_common_strict_plurality_perm_invariant_witness :
    (3 ∈ [3, 3, 5] ∧ ([3, 3, 5] : List Nat).Perm [3, 5, 3] ∧
      (∀ w ∈ [3, 3, 5], w ≠ 3 → ([3, 3, 5] : List Nat).count w < ([3, 3, 5] : List Nat).count 3)) ∧
    most_common [3, 5, 3] = 3 :=
  ⟨⟨by decide, by decide, by decide⟩,
    most_common_strict_plurality_perm_invariant [3, 3, 5] [3, 5, 3] 3
      (by decide) (by decide) (by decide)⟩

/-- Monadic map over a one-element list in the `Option` monad. -/
theorem mapM_singleton {α β : Type} (f : α → Option β) (a : α) :
    [a].mapM f = (f a).map (fun b => [b]) := by
  cases h : f a <;> simp [List.mapM, List.mapM.loop, h]

/-- Majority vote over a single-element window is that element. -/
theorem most_common_singleton (t : Nat) : most_common [t] = t := by
  have h1 : tally [t] = [(t, 1)] := by
    unfold tally
    rw [List.dedup_cons_of_not_mem (List.not_mem_nil t), List.dedup_nil]
    simp
  rw [most_common, h1]
  rfl

/-- C6: at scale 1 the engine is classification-only — every output cell of
the downscale pipeline equals the direct per-cell classification of the
corresponding source cell, for every source grid, table, threshold and
coordinate (including the aborting cases, which coincide). -/
theorem downscale_by_one_is_classification (src : List Nat)
    (mappings : List PixelMapping) (width maxVal x y : Nat) :
    cellColors src mappings 1 width maxVal x y =
      classifyOnly src mappings width maxVal x y := by
  have hrange : List.range 1 = [0] := rfl
  have hidx : windowIndices 1 width x y = [y * width + x] := by
    simp [windowIndices, windowIndex, hrange]
  unfold cellColors classifyOnly windowCodes classifyWindow
  rw [hidx, mapM_singleton]
  cases hsv : src[y * width + x]? with
  | none => rfl
  | some v =>
      cases hc : classifyCell mappings maxVal v with
      | none => simp [List.mapM.loop, hc]
      | some q =>
          simp [List.mapM.loop, hc, axisVotes, most_common_singleton]

/-- C10: every source-buffer index computed by the window loop stays
strictly below width * height, for every scale at least 1, every output
coordinate of the floor-divided output grid and every in-window offset —
also when width or height is not a multiple of the scale. -/
theorem windowIndex_in_bounds (scale width height x y i j : Nat)
    (hs : 1 ≤ scale) (hx : x < outWidth width scale)
    (hy : y < outHeight height scale) (hi : i < scale) (hj : j < scale) :
    windowIndex scale width x y i j < width * height := by
  have hx2 : x + 1 ≤ width / scale := hx
  have hy2 : y + 1 ≤ height / scale := hy
  have hcol : x * scale + i < width := by
    have h1 : (x + 1) * scale ≤ width / scale * scale :=
      Nat.mul_le_mul hx2 (le_refl scale)
    have h2 : width / scale * scale ≤ width := Nat.div_mul_le_self width scale
    have h3 : (x + 1) * scale = x * scale + scale := by ring
    omega
  have hrow : y * scale + j < height := by
    have h1 : (y + 1) * scale ≤ height / scale * scale :=
      Nat.mul_le_mul hy2 (le_refl scale)
    have h2 : height / scale * scale ≤ height := Nat.div_mul_le_self height scale
    have h3 : (y + 1) * scale = y * scale + scale := by ring
    omega
  calc windowIndex scale width x y i j
      = (y * scale + j) * width + (x * scale + i) := rfl
    _ < (y * scale + j) * width + width := by omega
    _ = (y * scale + j + 1) * width := by ring
    _ ≤ height * width := Nat.mul_le_mul hrow (le_refl width)
    _ = width * height := Nat.mul_comm height width

/-- Witness for C10 at scale 2 on a 5 x 3 grid (dimensions not multiples of
the scale), at the last output pixel and window offset. -/
theorem windowIndex_in_bounds_witness :
    (1 ≤ 2 ∧ 1 < outWidth 5 2 ∧ 0 < outHeight 3 2 ∧ 1 < 2 ∧ 1 < 2) ∧
    windowIndex 2 5 1 0 1 1 < 5 * 3 :=
  ⟨⟨by decide, by decide, by decide, by decide, by decide⟩,
    windowIndex_in_bounds 2 5 3 1 0 1 1 (by decide) (by decide) (by decide)
      (by decide) (by decide)⟩

/-- Membership in one window's index list: exactly the flat indices of the
scale-by-scale rectangle at source origin (x * scale, y * scale). -/
theorem windowIndices_mem_iff (scale width x y idx : Nat) :
    idx ∈ windowIndices scale width x y ↔
      ∃ r c, y * scale ≤ r ∧ r < y * scale + scale ∧ x * scale ≤ c ∧
        c < x * scale + scale ∧ idx = r * width + c := by
  unfold windowIndices windowIndex
  simp only [List.mem_flatMap, List.mem_map, List.mem_range]
  constructor
  · rintro ⟨i, hi, j, hj, rfl⟩
    exact ⟨y * scale + j, x * scale + i, by omega, by omega, by omega, by omega, rfl⟩
  · rintro ⟨r, c, hr1, hr2, hc1, hc2, rfl⟩
    refine ⟨c - x * scale, by omega, r - y * scale, by omega, ?_⟩
    have h1 : y * scale + (r - y * scale) = r := by omega
    have h2 : x * scale + (c - x * scale) = c := by omega
    rw [h1, h2]

/-- Quotient-remainder decompositions with the same divisor and remainders
below it agree componentwise. -/
theorem rowcol_unique (s a b a2 b2 : Nat) (hb : b < s) (hb2 : b2 < s)
    (h : a * s + b = a2 * s + b2) : a = a2 ∧ b = b2 := by
  have ha : a = a2 := by
    by_contra hne
    rcases Nat.lt_or_ge a a2 with hlt | hge
    · have h1 : (a + 1) * s ≤ a2 * s := Nat.mul_le_mul hlt (le_refl s)
      have h2 : (a + 1) * s = a * s + s := by ring
      omega
    · have hlt : a2 < a := by omega
      have h1 : (a2 + 1) * s ≤ a * s := Nat.mul_le_mul hlt (le_refl s)
      have h2 : (a2 + 1) * s = a2 * s + s := by ring
      omega
  subst ha
  exact ⟨rfl, by omega⟩

/-- Every window index list has exactly scale * scale entries. -/
theorem windowIndices_length (scale width x y : Nat) :
    (windowIndices scale width x y).length = scale * scale := by
  unfold windowIndices
  rw [List.length_flatMap]
  have h : List.map (List.length ∘ fun i =>
        List.map (fun j => windowIndex scale width x y i j) (List.range scale))
        (List.range scale) =
      List.map (fun _ => scale) (List.range scale) :=
    List.map_congr_left (fun a _ => by simp [Function.comp])
  rw [h, List.map_const']
  simp [List.sum_replicate, smul_eq_mul]

/-- C4: when both source dimensions are exact multiples of the scale (scale
at least 1), the output grids measure width/scale by height/scale with no
remainder, each output cell's window index list has scale * scale entries
and holds exactly the flat indices of the scale-by-scale source rectangle
at origin (x*scale, y*scale), the windows of distinct output cells are
disjoint, and together the windows cover every source-buffer index. -/
theorem exact_multiple_window_partition (scale width height : Nat)
    (hs : 1 ≤ scale) (hw : scale ∣ width) (hh : scale ∣ height) :
    (outWidth width scale * scale = width ∧
      outHeight height scale * scale = height) ∧
    (∀ x y, (windowIndices scale width x y).length = scale * scale) ∧
    (∀ x y idx, idx ∈ windowIndices scale width x y ↔
        ∃ r c, y * scale ≤ r ∧ r < y * scale + scale ∧ x * scale ≤ c ∧
          c < x * scale + scale ∧ idx = r * width + c) ∧
    (∀ x y x2 y2 idx, x < outWidth width scale → x2 < outWidth width scale →
        ¬(x = x2 ∧ y = y2) → idx ∈ windowIndices scale width x y →
        idx ∉ windowIndices scale width x2 y2) ∧
    (∀ idx, idx < width * height →
        ∃ x y, x < outWidth width scale ∧ y < outHeight height scale ∧
          idx ∈ windowIndices scale width x y) := by
  refine ⟨⟨Nat.div_mul_cancel hw, Nat.div_mul_cancel hh⟩,
    fun x y => windowIndices_length scale width x y,
    fun x y idx => windowIndices_mem_iff scale width x y idx, ?_, ?_⟩
  · intro x y x2 y2 idx hx hx2 hne h1 h2
    obtain ⟨r, c, hr1, hr2, hc1, hc2, rfl⟩ :=
      (windowIndices_mem_iff scale width x y _).mp h1
    obtain ⟨r2, c2, hr21, hr22, hc21, hc22, heq⟩ :=
      (windowIndices_mem_iff scale width x2 y2 _).mp h2
    have hwc : width / scale * scale = width := Nat.div_mul_cancel hw
    have hcw : c < width := by
      have hb1 : (x + 1) * scale ≤ width / scale * scale :=
        Nat.mul_le_mul hx (le_refl scale)
      have hb2 : (x + 1) * scale = x * scale + scale := by ring
      omega
    have hc2w : c2 < width := by
      have hb1 : (x2 + 1) * scale ≤ width / scale * scale :=
        Nat.mul_le_mul hx2 (le_refl scale)
      have hb2 : (x2 + 1) * scale = x2 * scale + scale := by ring
      omega
    obtain ⟨hr, hc⟩ := rowcol_unique width r c r2 c2 hcw hc2w heq
    have hyy : y = y2 :=
      (rowcol_unique scale y (r - y * scale) y2 (r2 - y2 * scale)
        (by omega) (by omega) (by omega)).1
    have hxx : x = x2 :=
      (rowcol_unique scale x (c - x * scale) x2 (c2 - x2 * scale)
        (by omega) (by omega) (by omega)).1
    exact hne ⟨hxx, hyy⟩
  · intro idx hidx
    have hw0 : 0 < width := by
      rcases Nat.eq_zero_or_pos width with h0 | h0
      · rw [h0] at hidx
        simp at hidx
      · exact h0
    refine ⟨(idx % width) / scale, (idx / width) / scale, ?_, ?_, ?_⟩
    · exact Nat.div_lt_div_of_lt_of_dvd hw (Nat.mod_lt idx hw0)
    · exact Nat.div_lt_div_of_lt_of_dvd hh (Nat.div_lt_of_lt_mul hidx)
    · rw [windowIndices_mem_iff]
      refine ⟨idx / width, idx % width, ?_, ?_, ?_, ?_, ?_⟩
      · exact Nat.div_mul_le_self _ scale
      · have hdm := Nat.div_add_mod (idx / width) scale
        have hms : (idx / width) % scale < scale := Nat.mod_lt _ (by omega)
        have hcm : idx / width / scale * scale = scale * (idx / width / scale) :=
          Nat.mul_comm _ _
        omega
      · exact Nat.div_mul_le_self _ scale
      · have hdm := Nat.div_add_mod (idx % width) scale
        have hms : (idx % width) % scale < scale := Nat.mod_lt _ (by omega)
        have hcm : idx % width / scale * scale = scale * (idx % width / scale) :=
          Nat.mul_comm _ _
        omega
      · have hdm := Nat.div_add_mod idx width
        have hcm : idx / width * width = width * (idx / width) := Nat.mul_comm _ _
        omega

/-- Witness for C4 at scale 2 on a 4 x 2 grid. -/
theorem exact_multiple_window_partition_witness :
    (1 ≤ 2 ∧ 2 ∣ 4 ∧ 2 ∣ 2) ∧
    ((outWidth 4 2 * 2 = 4 ∧ outHeight 2 2 * 2 = 2) ∧
      (∀ x y, (windowIndices 2 4 x y).length = 2 * 2) ∧
      (∀ x y idx, idx ∈ windowIndices 2 4 x y ↔
          ∃ r c, y * 2 ≤ r ∧ r < y * 2 + 2 ∧ x * 2 ≤ c ∧
            c < x * 2 + 2 ∧ idx = r * 4 + c) ∧
      (∀ x y x2 y2 idx, x < outWidth 4 2 → x2 < outWidth 4 2 →
          ¬(x = x2 ∧ y = y2) → idx ∈ windowIndices 2 4 x y →
          idx ∉ windowIndices 2 4 x2 y2) ∧
      (∀ idx, idx < 4 * 2 →
          ∃ x y, x < outWidth 4 2 ∧ y < outHeight 2 2 ∧
            idx ∈ windowIndices 2 4 x y)) :=
  ⟨⟨by decide, by decide, by decide⟩,
    exact_multiple_window_partition 2 4 2 (by decide) (by decide) (by decide)⟩

/-- Processing one field never panics unless the field is an empty numeric
under one of the five stored names. -/
theorem applyField_some (p : PixelMapping) (nm : String) (v : FieldValue)
    (h : v = FieldValue.numeric none → nm ∉ namedFields) :
    ∃ p2, applyField p nm v = some p2 := by
  cases v with
  | numeric n =>
      cases n with
      | none =>
          have hnm := h rfl
          simp [namedFields] at hnm
          obtain ⟨h1, h2, h3, h4, h5⟩ := hnm
          exact ⟨p, by simp [applyField, h1, h2, h3, h4, h5]⟩
      | some k =>
          unfold applyField
          split_ifs <;> exact ⟨_, rfl⟩
  | character s => exact ⟨p, rfl⟩

/-- Processing a field stored under a different name leaves a named row
field unchanged. -/
theorem applyField_preserves (p p2 : PixelMapping) (nm name : String)
    (v : FieldValue) (happ : applyField p nm v = some p2)
    (hname : name ∈ namedFields) (hne : nm ≠ name) :
    rowField p2 name = rowField p name := by
  have hdis : name = "Value" ∨ name = "World_Lan1" ∨ name = "World_Lan2" ∨
      name = "World_Temp" ∨ name = "World_Mois" := by
    simpa [namedFields] using hname
  cases v with
  | character s =>
      have hp : p = p2 := by simpa [applyField] using happ
      rw [← hp]
  | numeric n =>
      unfold applyField at happ
      split_ifs at happ with h1 h2 h3 h4 h5
      · cases n with
        | none => simp at happ
        | some k =>
            simp only [Option.map_some', Option.some.injEq] at happ
            subst happ
            rcases hdis with rfl | rfl | rfl | rfl | rfl
            · exact absurd h1 hne
            all_goals simp [rowField]
      · cases n with
        | none => simp at happ
        | some k =>
            simp only [Option.map_some', Option.some.injEq] at happ
            subst happ
            rcases hdis with rfl | rfl | rfl | rfl | rfl
            · simp [rowField]
            · exact absurd h2 hne
            all_goals simp [rowField]
      · cases n with
        | none => simp at happ
        | some k =>
            simp only [Option.map_some', Option.some.injEq] at happ
            subst happ
            rcases hdis with rfl | rfl | rfl | rfl | rfl
            · simp [rowField]
            · simp [rowField]
            · exact absurd h3 hne
            all_goals simp [rowField]
      · cases n with
        | none => simp at happ
        | some k =>
            simp only [Option.map_some', Option.some.injEq] at happ
            subst happ
            rcases hdis with rfl | rfl | rfl | rfl | rfl
            · simp [rowField]
            · simp [rowField]
            · simp [rowField]
            · exact absurd h4 hne
            · simp [rowField]
      · cases n with
        | none => simp at happ
        | some k =>
            simp only [Option.map_some', Option.some.injEq] at happ
            subst happ
            rcases hdis with rfl | rfl | rfl | rfl | rfl
            · simp [rowField]
            · simp [rowField]
            · simp [rowField]
            · simp [rowField]
            · exact absurd h5 hne
      · injection happ with heq
        subst heq
        rfl

/-- Folding a record over the all-zero row succeeds when no named field is
an empty numeric, and leaves every named field untouched whose record
entries are all non-numeric. -/
theorem buildFold_spec (fields : List (String × FieldValue)) (p : PixelMapping)
    (hno : ∀ nm, (nm, FieldValue.numeric none) ∈ fields → nm ∉ namedFields) :
    ∃ q, fields.foldlM (fun r nv => applyField r nv.1 nv.2) p = some q ∧
      ∀ name ∈ namedFields,
        (∀ v, (name, v) ∈ fields → ∃ s, v = FieldValue.character s) →
        rowField q name = rowField p name := by
  induction fields generalizing p with
  | nil => exact ⟨p, rfl, fun _ _ _ => rfl⟩
  | cons fv rest ih =>
      have hhd : fv.2 = FieldValue.numeric none → fv.1 ∉ namedFields := by
        intro hv
        apply hno fv.1
        rw [← hv]
        exact List.mem_cons_self fv rest
      obtain ⟨p2, hp2⟩ := applyField_some p fv.1 fv.2 hhd
      obtain ⟨q, hq, hpres⟩ := ih p2 (fun nm h => hno nm (List.mem_cons_of_mem fv h))
      refine ⟨q, ?_, ?_⟩
      · rw [List.foldlM_cons, hp2]
        simpa using hq
      · intro name hname hchar
        have hq2 : rowField q name = rowField p2 name :=
          hpres name hname (fun v hv => hchar v (List.mem_cons_of_mem fv hv))
        have hp2p : rowField p2 name = rowField p name := by
          rcases eq_or_ne fv.1 name with heq | hnee
          · obtain ⟨s, hs⟩ := hchar fv.2 (by rw [← heq]; exact List.mem_cons_self fv rest)
            rw [hs] at hp2
            have hpp : p = p2 := by simpa [applyField] using hp2
            rw [← hpp]
          · exact applyField_preserves p p2 fv.1 name fv.2 hp2 hname hnee
        rw [hq2, hp2p]

/-- C9 counterexample: in the record holding only an empty numeric "Value"
field, the named field "World_Temp" is absent, yet building the row panics
(the `unwrap` at main.rs line 33) instead of accepting the record with the
field defaulted to 0. -/
theorem buildRow_empty_numeric_panics :
    (∀ fv ∈ [("Value", FieldValue.numeric none)], fv.1 ≠ "World_Temp") ∧
    buildRow [("Value", FieldValue.numeric none)] = none := by
  constructor
  · simp
  · rfl

/-- C9 amended: building the attribute row treats an absent or everywhere
non-numeric named field as 0 and still accepts the record, provided no named
field of the record is a present-but-empty numeric — such a field aborts the
build through the `unwrap` at main.rs lines 33-37. -/
theorem buildRow_defaults_named_field (fields : List (String × FieldValue))
    (name : String) (hname : name ∈ namedFields)
    (habsent : ∀ v, (name, v) ∈ fields → ∃ s, v = FieldValue.character s)
    (hno : ∀ nm, (nm, FieldValue.numeric none) ∈ fields → nm ∉ namedFields) :
    ∃ row, buildRow fields = some row ∧ rowField row name = 0 := by
  obtain ⟨q, hq, hpres⟩ := buildFold_spec fields ⟨0, 0, 0, 0, 0⟩ hno
  refine ⟨q, hq, ?_⟩
  rw [hpres name hname habsent]
  unfold rowField
  split_ifs <;> rfl

/-- Witness for the amended C9: a record with a numeric "Value" field and no
"World_Temp" field is accepted and leaves temperature 0. -/
theorem buildRow_defaults_named_field_witness :
    ("World_Temp" ∈ namedFields ∧
      (∀ v, (("World_Temp", v) : String × FieldValue) ∈
          [("Value", FieldValue.numeric (some 3))] →
        ∃ s, v = FieldValue.character s) ∧
      (∀ nm, ((nm, FieldValue.numeric none) : String × FieldValue) ∈
          [("Value", FieldValue.numeric (some 3))] → nm ∉ namedFields)) ∧
    ∃ row, buildRow [("Value", FieldValue.numeric (some 3))] = some row ∧
      rowField row "World_Temp" = 0 :=
  ⟨⟨by simp [namedFields], by intro v hv; simp at hv, by intro nm h; simp at h⟩,
    buildRow_defaults_named_field [("Value", FieldValue.numeric (some 3))]
      "World_Temp" (by simp [namedFields]) (by intro v hv; simp at hv)
      (by intro nm h; simp at h)⟩

/-- C5 counterexample: in the §8 scenario the top-left window's codes are
[1, 2, 1, 2] — a 2-to-2 tie between codes 1 and 2, so the quadrant has no
majority code; code 2 equals the grid maximum 2 and is sentinel-classified
without a lookup, giving terrain values [4, 0, 4, 0], and under the
admissible reversed iteration order of the frequency table the vote is 0,
rendering the top-left terrain pixel blue (35, 137, 218) instead of the
claimed green. -/
theorem scenario_tie_no_majority :
    windowCodes c5src 2 4 0 0 = some [1, 2, 1, 2] ∧
    ([1, 2, 1, 2] : List Nat).count 1 = 2 ∧
    ([1, 2, 1, 2] : List Nat).count 2 = 2 ∧
    maxSource c5src = some 2 ∧
    classifyWindow c5table 2 [1, 2, 1, 2] =
      some [(4, 1, 1, 1), (0, 0, 0, 0), (4, 1, 1, 1), (0, 0, 0, 0)] ∧
    ([((0 : Nat), (2 : Nat)), (4, 2)]).Perm (tally [4, 0, 4, 0]) ∧
    most_common_fold [(0, 2), (4, 2)] = 0 ∧
    paletteTerrain 0 = (35, 137, 218) := by decide

/-- C5 amended: in the §8 scenario the engine yields a 2 x 2 terrain grid
whose four windows each hold codes [1, 2, 1, 2] — a 2-to-2 tie with no
strict majority code, classified to terrain values with code 2 sentinel'd
as unclassified because it equals the grid maximum; under the canonical
insertion-order tie-break all four cells, the top-left included, come out
green (98, 188, 47), but this color rests on the tie-break, not on a
majority of the quadrant's codes. -/
theorem scenario_insertion_order_green :
    outWidth 4 2 = 2 ∧ outHeight 4 2 = 2 ∧
    (runCell c5src c5table 2 4 0 0 =
        some ((98, 188, 47), (0, 128, 0), (0, 0, 255), (255, 255, 0)) ∧
      runCell c5src c5table 2 4 1 0 =
        some ((98, 188, 47), (0, 128, 0), (0, 0, 255), (255, 255, 0)) ∧
      runCell c5src c5table 2 4 0 1 =
        some ((98, 188, 47), (0, 128, 0), (0, 0, 255), (255, 255, 0)) ∧
      runCell c5src c5table 2 4 1 1 =
        some ((98, 188, 47), (0, 128, 0), (0, 0, 255), (255, 255, 0))) ∧
    (windowCodes c5src 2 4 0 0 = some [1, 2, 1, 2] ∧
      windowCodes c5src 2 4 1 0 = some [1, 2, 1, 2] ∧
      windowCodes c5src 2 4 0 1 = some [1, 2, 1, 2] ∧
      windowCodes c5src 2 4 1 1 = some [1, 2, 1, 2]) :=
  ⟨by decide, by decide, ⟨by decide, by decide, by decide, by decide⟩,
    by decide, by decide, by decide, by decide⟩
